import Mathlib

/-!
Verification of the journey progress-tracking and roadmap-assembly logic of
the `frontend-v2` sources: a shallow embedding of the page-level handlers in
`app/journey/[id]/page.tsx`, `app/chat/page.tsx`, the start page, and
`app/components/learning/LearningRoadmap.tsx`, together with a model of the
progress store behind the progress endpoints.

Conventions: JavaScript numbers that are always integral are modelled as
`Int`/`Nat`; JS `Map`/record values are association lists; `undefined`/`null`
is `Option.none`.  The optional `resources`/`sections` arrays of a journey
are modelled as plain lists because every verified code path collapses a
missing array and an empty one to the same behaviour.
-/

namespace Upskill

/-- A scraped learning resource (`services/api.ts`, `Resource`); metadata
fields that the verified components never read are omitted. -/
structure Resource where
  id : String
  url : String
  title : String
  type : String
  difficulty : String
  estimated_time : Int
deriving Repr, DecidableEq

/-- A journey section (`services/api.ts`, `Section`): a name, an optional
description and the ids of its resources. -/
structure JourneySection where
  name : String
  description : Option String
  resources : List String
deriving Repr, DecidableEq

/-- A journey (`services/api.ts`, `Journey`). -/
structure Journey where
  id : Nat
  topic : String
  goal : String
  level : String
  status : String
  resources : List Resource
  sections : List JourneySection
deriving Repr, DecidableEq

/-- Per-resource progress as served in `ProgressSummary.progress_by_resource`
(`completed` is 0 = not started, 1 = in progress, 2 = completed). -/
structure ResourceProgress where
  completed : Nat
  time_spent_minutes : Int
deriving Repr, DecidableEq

/-- The slice of `services/api.ts` `ProgressSummary` that the verified
components read: the per-resource progress record, keyed by resource id. -/
structure ProgressSummary where
  progress_by_resource : List (String × ResourceProgress)
deriving Repr, DecidableEq

/-- Record lookup `progress_by_resource[resourceId]`. -/
def lookupProg (pbr : List (String × ResourceProgress)) (rid : String) :
    Option ResourceProgress :=
  (pbr.find? (fun p => decide (p.1 = rid))).map (·.2)

/-- A progress write issued by the journey page through `apiClient`
(`markResourceInProgress`, `markResourceCompleted`, `markResourceIncomplete`,
`updateTimeSpent`). -/
inductive ApiWrite where
  | markInProgress (journeyId : Nat) (resourceId : String)
  | markCompleted (journeyId : Nat) (resourceId : String)
  | markIncomplete (journeyId : Nat) (resourceId : String)
  | addTimeSpent (journeyId : Nat) (resourceId : String) (minutes : Int)
deriving Repr, DecidableEq

/-- The journey page's mutable `timeTrackingRef`: start timestamp in
milliseconds, tracked resource id, and whether the 30-second interval is
armed (`intervalId !== null`). -/
structure TimeTrackingState where
  startTime : Option Int
  resourceId : Option String
  intervalActive : Bool
deriving Repr, DecidableEq

/-- The initial value of `timeTrackingRef`. -/
def initialTracking : TimeTrackingState := ⟨none, none, false⟩

/-- The page's minute computation `Math.floor((now - startTime) / 60000)`
(JS floored division). -/
def elapsedMinutes (startTime now : Int) : Int := Int.fdiv (now - startTime) 60000

/-- `stopTimeTracking` (journey page, lines 231-249): clear the interval
and, when a resource was being tracked, flush the elapsed floored minutes as
an `updateTimeSpent` write if they are positive, then clear the tracking
fields.  Returns the updated ref and the issued writes. -/
def stopTimeTracking (jid : Nat) (now : Int) (ref : TimeTrackingState) :
    TimeTrackingState × List ApiWrite :=
  match ref.startTime, ref.resourceId with
  | some s, some rid =>
      (⟨none, none, false⟩,
       if 0 < elapsedMinutes s now then [ApiWrite.addTimeSpent jid rid (elapsedMinutes s now)]
       else [])
  | _, _ => ({ ref with intervalActive := false }, [])

/-- `startTimeTracking` (journey page, lines 194-228): stop any previous
tracking; skip when this resource is mid completion-toggle
(`skipTimeTrackingRef`) or when its progress already shows
`completed === 2`; otherwise record the start time, arm the interval and
issue a mark-in-progress write. -/
def startTimeTracking (jid : Nat) (now : Int) (skipRef : Option String)
    (progress : Option ProgressSummary) (ref : TimeTrackingState) (rid : String) :
    TimeTrackingState × List ApiWrite :=
  if skipRef = some rid then stopTimeTracking jid now ref
  else if (progress.bind (fun p => lookupProg p.progress_by_resource rid)).map (·.completed)
      = some 2 then stopTimeTracking jid now ref
  else
    (⟨some now, some rid, true⟩,
     (stopTimeTracking jid now ref).2 ++ [ApiWrite.markInProgress jid rid])

/-- One firing of the 30-second interval armed by `startTimeTracking`
(lines 220-227): report the cumulative floored minutes since `startTime`
when positive (the start time is not reset by a tick). -/
def intervalTick (jid : Nat) (now : Int) (ref : TimeTrackingState) : List ApiWrite :=
  match ref.startTime, ref.resourceId with
  | some s, some rid =>
      if 0 < elapsedMinutes s now then [ApiWrite.addTimeSpent jid rid (elapsedMinutes s now)]
      else []
  | _, _ => []

/-- `savePosition` (journey page, lines 251-259): when the index is valid,
stop tracking the previous resource and only then start tracking the newly
selected one. -/
def savePosition (jid : Nat) (now : Int) (skipRef : Option String)
    (progress : Option ProgressSummary) (journey : Journey) (ref : TimeTrackingState)
    (index : Nat) : TimeTrackingState × List ApiWrite :=
  match journey.resources[index]? with
  | some r =>
      let stopped := stopTimeTracking jid now ref
      let started := startTimeTracking jid now skipRef progress stopped.1 r.id
      (started.1, stopped.2 ++ started.2)
  | none => (ref, [])

/-- Modelled from the spec: lazy record creation of the ProgressTracker
("created lazily on first view", section 3) — the backend service behind the
progress endpoints is not part of the frontend sources.  Updates the record
for `rid` in place, creating it from the all-zero default when absent. -/
def updateProg : List (String × ResourceProgress) → String →
    (ResourceProgress → ResourceProgress) → List (String × ResourceProgress)
  | [], rid, f => [(rid, f ⟨0, 0⟩)]
  | p :: rest, rid, f =>
      if p.1 = rid then (p.1, f p.2) :: rest else p :: updateProg rest rid f

/-- Modelled from the spec: the ProgressTracker write semantics of section
4.5 — the backend service behind the progress endpoints is not part of the
frontend sources.  `mark_in_progress` is a no-op on a completed record and
otherwise raises `completed` to at least 1; `mark_completed` and
`mark_incomplete` set it directly; `add_time_spent` ignores non-positive
input and never touches `completed`. -/
def applyProgressWrite (store : List (String × ResourceProgress)) :
    ApiWrite → List (String × ResourceProgress)
  | ApiWrite.markInProgress _ rid =>
      updateProg store rid
        (fun p => if p.completed = 2 then p else { p with completed := max p.completed 1 })
  | ApiWrite.markCompleted _ rid => updateProg store rid (fun p => { p with completed := 2 })
  | ApiWrite.markIncomplete _ rid => updateProg store rid (fun p => { p with completed := 0 })
  | ApiWrite.addTimeSpent _ rid m =>
      if m ≤ 0 then store
      else updateProg store rid
        (fun p => { p with time_spent_minutes := p.time_spent_minutes + m })

/-- Writes that merely report viewing or time spent, as opposed to the
explicit completion toggles. -/
def isViewOrTimeWrite : ApiWrite → Prop
  | ApiWrite.markInProgress _ _ => True
  | ApiWrite.addTimeSpent _ _ _ => True
  | _ => False

theorem lookupProg_cons (p : String × ResourceProgress)
    (rest : List (String × ResourceProgress)) (x : String) :
    lookupProg (p :: rest) x = if p.1 = x then some p.2 else lookupProg rest x := by
  by_cases h : p.1 = x <;> simp [lookupProg, List.find?_cons, h]

theorem lookupProg_updateProg (store : List (String × ResourceProgress)) (rid : String)
    (f : ResourceProgress → ResourceProgress) (x : String) :
    lookupProg (updateProg store rid f) x =
      if x = rid then some (f ((lookupProg store rid).getD ⟨0, 0⟩))
      else lookupProg store x := by
  induction store with
  | nil =>
      by_cases h : x = rid
      · simp [updateProg, lookupProg, List.find?, h]
      · have h2 : ¬ rid = x := fun hc => h hc.symm
        simp [updateProg, lookupProg, List.find?, h, h2]
  | cons p rest ih =>
      by_cases h : p.1 = rid
      · subst h
        by_cases hx : x = p.1
        · simp [updateProg, lookupProg_cons, hx]
        · simp [updateProg, lookupProg_cons, hx, Ne.symm hx]
      · by_cases hx : x = p.1
        · have : ¬ x = rid := by
            intro hc; exact h (by rw [← hx, hc])
          simp [updateProg, h, lookupProg_cons, hx, this]
        · have hpx : ¬ p.1 = x := fun hc => hx hc.symm
          simp [updateProg, h, lookupProg_cons, hpx, ih]

theorem addTime_keeps_completed (j : Nat) (r : String) (m : Int)
    (store : List (String × ResourceProgress)) (x : String) (p : ResourceProgress)
    (hx : lookupProg store x = some p) :
    ∃ q, lookupProg (applyProgressWrite store (ApiWrite.addTimeSpent j r m)) x = some q ∧
      q.completed = p.completed := by
  by_cases hm : m ≤ 0
  · exact ⟨p, by simp [applyProgressWrite, hm, hx], rfl⟩
  · by_cases hxr : x = r
    · subst hxr
      refine ⟨{ p with time_spent_minutes := p.time_spent_minutes + m }, ?_, rfl⟩
      simp [applyProgressWrite, hm, lookupProg_updateProg, hx]
    · exact ⟨p, by simp [applyProgressWrite, hm, lookupProg_updateProg, hxr, hx], rfl⟩

theorem viewtime_write_keeps_completed2 (w : ApiWrite) (hw : isViewOrTimeWrite w)
    (store : List (String × ResourceProgress)) (x : String) (p : ResourceProgress)
    (hx : lookupProg store x = some p) (h2 : p.completed = 2) :
    ∃ q, lookupProg (applyProgressWrite store w) x = some q ∧ q.completed = 2 := by
  cases w with
  | markInProgress j r =>
      by_cases hxr : x = r
      · subst hxr
        refine ⟨p, ?_, h2⟩
        simp [applyProgressWrite, lookupProg_updateProg, hx, h2]
      · exact ⟨p, by simp [applyProgressWrite, lookupProg_updateProg, hxr, hx], h2⟩
  | addTimeSpent j r m =>
      obtain ⟨q, hq, he⟩ := addTime_keeps_completed j r m store x p hx
      exact ⟨q, hq, he.trans h2⟩
  | markCompleted j r => exact absurd hw (by simp [isViewOrTimeWrite])
  | markIncomplete j r => exact absurd hw (by simp [isViewOrTimeWrite])

theorem foldl_viewtime_keeps_completed2 (ws : List ApiWrite)
    (hws : ∀ w ∈ ws, isViewOrTimeWrite w) (store : List (String × ResourceProgress))
    (x : String) (p : ResourceProgress) (hx : lookupProg store x = some p)
    (h2 : p.completed = 2) :
    ∃ q, lookupProg (ws.foldl applyProgressWrite store) x = some q ∧ q.completed = 2 := by
  induction ws generalizing store p with
  | nil => exact ⟨p, by simpa using hx, h2⟩
  | cons w rest ih =>
      obtain ⟨q, hq, hq2⟩ :=
        viewtime_write_keeps_completed2 w (hws w (by simp)) store x p hx h2
      simpa using ih (fun v hv => hws v (by simp [hv])) (applyProgressWrite store w) q hq hq2

/-- Claim C1: when the recorded progress of a resource shows
`completed == 2`, `startTimeTracking` is a progress no-op: the tracking ref
ends cleared with no timer armed, no mark-in-progress write is issued (every
write it can emit is a time flush for the previously tracked resource), and
any number of view / time-tracking writes applied to a store where the
resource is completed leaves its `completed` value at 2. -/
theorem startTimeTracking_completed_noop (jid : Nat) (now : Int)
    (skipRef : Option String) (ps : ProgressSummary) (ref : TimeTrackingState)
    (rid : String) (p : ResourceProgress)
    (hp : lookupProg ps.progress_by_resource rid = some p) (h2 : p.completed = 2)
    (href : ref.startTime.isSome = ref.resourceId.isSome) :
    (startTimeTracking jid now skipRef (some ps) ref rid).1 = initialTracking ∧
    (∀ j r, ApiWrite.markInProgress j r ∉ (startTimeTracking jid now skipRef (some ps) ref rid).2) ∧
    (∀ w ∈ (startTimeTracking jid now skipRef (some ps) ref rid).2,
      ∃ j r m, w = ApiWrite.addTimeSpent j r m) ∧
    (∀ (store : List (String × ResourceProgress)) (q : ResourceProgress) (ws : List ApiWrite),
      lookupProg store rid = some q → q.completed = 2 → (∀ w ∈ ws, isViewOrTimeWrite w) →
      ∃ q2, lookupProg (ws.foldl applyProgressWrite store) rid = some q2 ∧ q2.completed = 2) := by
  have hstop : (stopTimeTracking jid now ref).1 = initialTracking := by
    cases hs : ref.startTime with
    | none =>
        have hr : ref.resourceId = none := by
          cases hrr : ref.resourceId with
          | none => rfl
          | some v => rw [hs, hrr] at href; simp at href
        cases ref with
        | mk a b c => simp_all [stopTimeTracking, initialTracking]
    | some s =>
        cases hrr : ref.resourceId with
        | none => rw [hs, hrr] at href; simp at href
        | some v => simp [stopTimeTracking, hs, hrr, initialTracking]
  have hcond : ((some ps).bind
      (fun pr => lookupProg pr.progress_by_resource rid)).map (·.completed) = some 2 := by
    simp [hp, h2]
  have hout : startTimeTracking jid now skipRef (some ps) ref rid =
      stopTimeTracking jid now ref := by
    unfold startTimeTracking
    by_cases hskip : skipRef = some rid
    · rw [if_pos hskip]
    · rw [if_neg hskip, if_pos hcond]
  have hwrites : ∀ w ∈ (stopTimeTracking jid now ref).2,
      ∃ j r m, w = ApiWrite.addTimeSpent j r m := by
    intro w hw
    unfold stopTimeTracking at hw
    cases hs : ref.startTime with
    | none => simp [hs] at hw
    | some s =>
        cases hrr : ref.resourceId with
        | none => simp [hs, hrr] at hw
        | some v =>
            simp only [hs, hrr] at hw
            by_cases ht : 0 < elapsedMinutes s now
            · simp [ht] at hw
              exact ⟨jid, v, elapsedMinutes s now, hw⟩
            · simp [ht] at hw
  refine ⟨?_, ?_, ?_, ?_⟩
  · rw [hout, hstop]
  · intro j r hmem
    rw [hout] at hmem
    obtain ⟨j2, r2, m2, hw⟩ := hwrites _ hmem
    exact ApiWrite.noConfusion hw
  · intro w hw
    rw [hout] at hw
    exact hwrites w hw
  · intro store q ws hq hq2 hws
    exact foldl_viewtime_keeps_completed2 ws hws store rid q hq hq2

/-- Witness for claim C1 at a concrete completed resource and idle tracker. -/
theorem startTimeTracking_completed_noop_witness :
    (startTimeTracking 1 1000 none (some ⟨[("r1", ⟨2, 0⟩)]⟩) initialTracking "r1").1 =
      initialTracking ∧
    (∀ j r, ApiWrite.markInProgress j r ∉
      (startTimeTracking 1 1000 none (some ⟨[("r1", ⟨2, 0⟩)]⟩) initialTracking "r1").2) ∧
    (∀ w ∈ (startTimeTracking 1 1000 none (some ⟨[("r1", ⟨2, 0⟩)]⟩) initialTracking "r1").2,
      ∃ j r m, w = ApiWrite.addTimeSpent j r m) ∧
    (∀ (store : List (String × ResourceProgress)) (q : ResourceProgress) (ws : List ApiWrite),
      lookupProg store "r1" = some q → q.completed = 2 → (∀ w ∈ ws, isViewOrTimeWrite w) →
      ∃ q2, lookupProg (ws.foldl applyProgressWrite store) "r1" = some q2 ∧ q2.completed = 2) :=
  startTimeTracking_completed_noop 1 1000 none ⟨[("r1", ⟨2, 0⟩)]⟩ initialTracking "r1"
    ⟨2, 0⟩ (by simp [lookupProg, List.find?]) rfl rfl

/-- Claim C4: every time write issued by the tracker (the interval tick or
the stop flush) is an `updateTimeSpent` carrying a strictly positive floored
number of minutes, and applying such a write to the progress store never
changes any record's completion state. -/
theorem time_writes_positive (jid : Nat) (now : Int) (ref : TimeTrackingState)
    (w : ApiWrite)
    (hw : w ∈ (stopTimeTracking jid now ref).2 ∨ w ∈ intervalTick jid now ref) :
    ∃ rid m, w = ApiWrite.addTimeSpent jid rid m ∧ 0 < m ∧
      ∀ (store : List (String × ResourceProgress)) (x : String) (p : ResourceProgress),
        lookupProg store x = some p →
        ∃ q, lookupProg (applyProgressWrite store w) x = some q ∧
          q.completed = p.completed := by
  have hmain : ∃ rid m, w = ApiWrite.addTimeSpent jid rid m ∧ 0 < m := by
    cases hs : ref.startTime with
    | none =>
        rcases hw with hw | hw
        · simp [stopTimeTracking, hs] at hw
        · simp [intervalTick, hs] at hw
    | some s =>
        cases hrr : ref.resourceId with
        | none =>
            rcases hw with hw | hw
            · simp [stopTimeTracking, hs, hrr] at hw
            · simp [intervalTick, hs, hrr] at hw
        | some v =>
            by_cases ht : 0 < elapsedMinutes s now
            · rcases hw with hw | hw
              · simp [stopTimeTracking, hs, hrr, ht] at hw
                exact ⟨v, elapsedMinutes s now, hw, ht⟩
              · simp [intervalTick, hs, hrr, ht] at hw
                exact ⟨v, elapsedMinutes s now, hw, ht⟩
            · rcases hw with hw | hw
              · simp [stopTimeTracking, hs, hrr, ht] at hw
              · simp [intervalTick, hs, hrr, ht] at hw
  obtain ⟨rid, m, hwm, hm⟩ := hmain
  refine ⟨rid, m, hwm, hm, ?_⟩
  intro store x p hx
  subst hwm
  exact addTime_keeps_completed jid rid m store x p hx

/-- Witness for claim C4: a tracker stopped after two minutes flushes a
single write of two positive minutes. -/
theorem time_writes_positive_witness :
    ∃ rid m, ApiWrite.addTimeSpent 1 "r1" 2 = ApiWrite.addTimeSpent 1 rid m ∧ 0 < m ∧
      ∀ (store : List (String × ResourceProgress)) (x : String) (p : ResourceProgress),
        lookupProg store x = some p →
        ∃ q, lookupProg (applyProgressWrite store (ApiWrite.addTimeSpent 1 "r1" 2)) x = some q ∧
          q.completed = p.completed :=
  time_writes_positive 1 120000 ⟨some 0, some "r1", true⟩ (ApiWrite.addTimeSpent 1 "r1" 2)
    (Or.inl (by decide))

/-- `isResourceCompleted` (journey page, lines 439-443): false without a
progress summary or with an empty resource id, otherwise whether the
resource's record shows `completed === 2`. -/
def isResourceCompleted (progress : Option ProgressSummary) (rid : String) : Bool :=
  match progress with
  | none => false
  | some ps =>
      if rid = "" then false
      else decide ((lookupProg ps.progress_by_resource rid).map (·.completed) = some 2)

/-- The completion-toggle write chosen by `handleMarkComplete` (journey
page, lines 261-291): a second invocation while the first is still pending
(`markingComplete === resourceId`) is dropped; otherwise the resource's
current completion state selects mark-incomplete or mark-complete. -/
def handleMarkCompleteWrite (jid : Nat) (markingComplete : Option String)
    (progress : Option ProgressSummary) (rid : String) : Option ApiWrite :=
  if markingComplete = some rid then none
  else if isResourceCompleted progress rid then some (ApiWrite.markIncomplete jid rid)
  else some (ApiWrite.markCompleted jid rid)

/-- One completed run of `handleMarkComplete` against a store that applies
the single issued write and serves a fresh summary for the confirmatory
read, returning the updated store (the client's next progress state is this
store's summary). -/
def runMarkComplete (jid : Nat) (store : List (String × ResourceProgress))
    (rid : String) : List (String × ResourceProgress) :=
  match handleMarkCompleteWrite jid none (some ⟨store⟩) rid with
  | none => store
  | some w => applyProgressWrite store w

/-- Counterexample to claim C2: starting from a not-started resource, one
application of the completion toggle yields `completed == 2`, but a second
sequential application issues mark-incomplete and yields `completed == 0` —
a flip-flop, not the same end state as applying it once. -/
theorem handleMarkComplete_twice_flips :
    (lookupProg (runMarkComplete 1 [("r1", ⟨0, 0⟩)] "r1") "r1").map (·.completed) =
      some 2 ∧
    (lookupProg (runMarkComplete 1 (runMarkComplete 1 [("r1", ⟨0, 0⟩)] "r1") "r1")
      "r1").map (·.completed) = some 0 ∧
    runMarkComplete 1 (runMarkComplete 1 [("r1", ⟨0, 0⟩)] "r1") "r1" ≠
      runMarkComplete 1 [("r1", ⟨0, 0⟩)] "r1" := by decide

/-- Claim C2 amended: `handleMarkComplete` is a guarded toggle, not an
idempotent mark-complete: a not-yet-completed resource is marked completed;
a repeated sequential application on the now-completed resource issues
mark-incomplete and leaves `completed == 0`; only a duplicate invocation
arriving while the first is still processing is dropped, leaving the state
unchanged. -/
theorem handleMarkComplete_toggle (jid : Nat)
    (store : List (String × ResourceProgress)) (rid : String) (hrid : rid ≠ "")
    (p : ResourceProgress) (hp : lookupProg store rid = some p) :
    (p.completed ≠ 2 →
      ∃ q, lookupProg (runMarkComplete jid store rid) rid = some q ∧ q.completed = 2) ∧
    (p.completed = 2 →
      ∃ q, lookupProg (runMarkComplete jid store rid) rid = some q ∧ q.completed = 0) ∧
    handleMarkCompleteWrite jid (some rid) (some ⟨store⟩) rid = none := by
  refine ⟨?_, ?_, ?_⟩
  · intro hne
    have hcompl : isResourceCompleted (some ⟨store⟩) rid = false := by
      simp [isResourceCompleted, hrid, hp, hne]
    refine ⟨{ p with completed := 2 }, ?_, rfl⟩
    simp [runMarkComplete, handleMarkCompleteWrite, hcompl, applyProgressWrite,
      lookupProg_updateProg, hp]
  · intro heq
    have hcompl : isResourceCompleted (some ⟨store⟩) rid = true := by
      simp [isResourceCompleted, hrid, hp, heq]
    refine ⟨{ p with completed := 0 }, ?_, rfl⟩
    simp [runMarkComplete, handleMarkCompleteWrite, hcompl, applyProgressWrite,
      lookupProg_updateProg, hp]
  · simp [handleMarkCompleteWrite]

/-- Witness for claim C2 (amended) at a concrete completed resource. -/
theorem handleMarkComplete_toggle_witness :
    ((⟨2, 7⟩ : ResourceProgress).completed ≠ 2 →
      ∃ q, lookupProg (runMarkComplete 1 [("r1", ⟨2, 7⟩)] "r1") "r1" = some q ∧
        q.completed = 2) ∧
    ((⟨2, 7⟩ : ResourceProgress).completed = 2 →
      ∃ q, lookupProg (runMarkComplete 1 [("r1", ⟨2, 7⟩)] "r1") "r1" = some q ∧
        q.completed = 0) ∧
    handleMarkCompleteWrite 1 (some "r1") (some ⟨[("r1", ⟨2, 7⟩)]⟩) "r1" = none :=
  handleMarkComplete_toggle 1 [("r1", ⟨2, 7⟩)] "r1" (by decide) ⟨2, 7⟩ (by decide)

/-- Outcome of the confirmatory-read loop in `handleMarkComplete` (journey
page, lines 294-341): either a summary showing the expected value was
obtained after the recorded number of `getProgressSummary` reads, or the
retries were exhausted and the page fell back to a full `loadJourneyData`
reload. -/
inductive ConfirmOutcome where
  | useSummary (readsPerformed : Nat) (summary : ProgressSummary)
  | reloadAll (readsPerformed : Nat)
deriving Repr, DecidableEq

/-- Number of `getProgressSummary` reads an outcome took. -/
def ConfirmOutcome.reads : ConfirmOutcome → Nat
  | useSummary n _ => n
  | reloadAll n => n

/-- The backoff delay awaited at the top of each loop iteration,
`300 * (6 - retries)` milliseconds. -/
def confirmDelay (retries : Nat) : Nat := 300 * (6 - retries)

/-- The retry loop of `handleMarkComplete`: starting from `retries = 5`,
each iteration waits `confirmDelay retries`, performs one
`getProgressSummary` read (`responses k` is the k-th read's result, `none`
modelling a failed request), breaks when the read shows the expected
completion value, decrements `retries` otherwise, and falls back to a full
reload when the retries are exhausted. -/
def confirmLoop (rid : String) (expected : Nat)
    (responses : Nat → Option ProgressSummary) :
    Nat → Nat → ConfirmOutcome
  | 0, reads => ConfirmOutcome.reloadAll reads
  | retries + 1, reads =>
      match responses reads with
      | some ps =>
          if (lookupProg ps.progress_by_resource rid).map (·.completed) = some expected then
            ConfirmOutcome.useSummary (reads + 1) ps
          else if retries = 0 then ConfirmOutcome.reloadAll (reads + 1)
          else confirmLoop rid expected responses retries (reads + 1)
      | none =>
          if retries = 0 then ConfirmOutcome.reloadAll (reads + 1)
          else confirmLoop rid expected responses retries (reads + 1)

/-- Total number of progress reads a full run of the confirmatory loop
performs. -/
def confirmReads (rid : String) (expected : Nat)
    (responses : Nat → Option ProgressSummary) : Nat :=
  (confirmLoop rid expected responses 5 0).reads

/-- Counterexample to claim C5: when the first confirmatory read is stale
and the second reflects the toggle, `handleMarkComplete` performs two
progress reads, not at most one, and its per-iteration delays increase —
a retry-with-backoff loop. -/
theorem handleMarkComplete_retries :
    confirmReads "r1" 2
      (fun k => if k = 0 then some ⟨[("r1", ⟨1, 0⟩)]⟩ else some ⟨[("r1", ⟨2, 0⟩)]⟩) = 2 ∧
    (2 : Nat) ≠ 1 ∧ confirmDelay 5 < confirmDelay 4 := by decide

theorem confirmLoop_reads_le (rid : String) (expected : Nat)
    (responses : Nat → Option ProgressSummary) (retries reads : Nat) :
    (confirmLoop rid expected responses retries reads).reads ≤ retries + reads := by
  induction retries generalizing reads with
  | zero => simp [confirmLoop, ConfirmOutcome.reads]
  | succ r ih =>
      unfold confirmLoop
      cases responses reads with
      | some ps =>
          by_cases hc :
              (lookupProg ps.progress_by_resource rid).map (·.completed) = some expected
          · simp [hc, ConfirmOutcome.reads]; omega
          · by_cases hr : r = 0
            · simp [hc, hr, ConfirmOutcome.reads]; omega
            · simp only [hc, hr, if_false, if_neg]
              calc (confirmLoop rid expected responses r (reads + 1)).reads
                  ≤ r + (reads + 1) := ih (reads + 1)
                _ ≤ r + 1 + reads := by omega
      | none =>
          by_cases hr : r = 0
          · simp [hr, ConfirmOutcome.reads]; omega
          · simp only [hr, if_neg]
            calc (confirmLoop rid expected responses r (reads + 1)).reads
                ≤ r + (reads + 1) := ih (reads + 1)
              _ ≤ r + 1 + reads := by omega

/-- Claim C5 amended: the confirmatory phase of `handleMarkComplete` is a
retry-with-backoff loop of at most five progress reads; a single
confirmatory read suffices exactly when the first read already reflects the
toggle. -/
theorem confirmLoop_bounds (rid : String) (expected : Nat)
    (responses : Nat → Option ProgressSummary) :
    confirmReads rid expected responses ≤ 5 ∧
    ((∃ ps, responses 0 = some ps ∧
        (lookupProg ps.progress_by_resource rid).map (·.completed) = some expected) →
      confirmReads rid expected responses = 1) := by
  constructor
  · simpa using confirmLoop_reads_le rid expected responses 5 0
  · rintro ⟨ps, hps, hc⟩
    simp [confirmReads, confirmLoop, hps, hc, ConfirmOutcome.reads]

/-- Witness for claim C5 (amended) with a backend whose first read is
already fresh. -/
theorem confirmLoop_bounds_witness :
    confirmReads "r1" 2 (fun _ => some ⟨[("r1", ⟨2, 0⟩)]⟩) ≤ 5 ∧
    ((∃ ps, (fun (_ : Nat) => some (⟨[("r1", ⟨2, 0⟩)]⟩ : ProgressSummary)) 0 = some ps ∧
        (lookupProg ps.progress_by_resource "r1").map (·.completed) = some 2) →
      confirmReads "r1" 2 (fun _ => some ⟨[("r1", ⟨2, 0⟩)]⟩) = 1) :=
  confirmLoop_bounds "r1" 2 (fun _ => some ⟨[("r1", ⟨2, 0⟩)]⟩)

/-- Counterexample to claim C9: after tracking a resource for 59 999
milliseconds, switching to the next resource issues no time write for it at
all — only the mark-in-progress write for the new resource — because the
flush floors the elapsed time to whole minutes; the sub-minute interval is
dropped, not credited. -/
theorem savePosition_drops_subminute :
    (savePosition 1 59999 none (some ⟨[]⟩)
      ⟨1, "t", "g", "beginner", "ready",
        [⟨"r1", "u1", "t1", "video", "beginner", 1⟩,
         ⟨"r2", "u2", "t2", "blog", "beginner", 1⟩], []⟩
      ⟨some 0, some "r1", true⟩ 1).2 = [ApiWrite.markInProgress 1 "r2"] ∧
    (0 : Int) < 59999 - 0 := by decide

/-- Claim C9 amended: switching the active resource stops tracking the
previous resource first — flushing its elapsed time floored to whole
minutes, so only a sub-minute remainder is lost — and only then starts
tracking the new resource from the switch time, so no interval is credited
to both resources; stopping the tracker (as `handleMarkComplete` does for
the actively-tracked resource) likewise flushes the accrued whole minutes
before clearing the timer. -/
theorem savePosition_switch (jid : Nat) (now s : Int) (journey : Journey)
    (idx : Nat) (r2 : Resource) (hidx : journey.resources[idx]? = some r2)
    (r1 : String) (ps : ProgressSummary)
    (hnc : ¬ (lookupProg ps.progress_by_resource r2.id).map (·.completed) = some 2) :
    savePosition jid now none (some ps) journey ⟨some s, some r1, true⟩ idx =
      (⟨some now, some r2.id, true⟩,
       (if 0 < elapsedMinutes s now then [ApiWrite.addTimeSpent jid r1 (elapsedMinutes s now)]
        else []) ++ [ApiWrite.markInProgress jid r2.id]) ∧
    stopTimeTracking jid now ⟨some s, some r1, true⟩ =
      (initialTracking,
       if 0 < elapsedMinutes s now then [ApiWrite.addTimeSpent jid r1 (elapsedMinutes s now)]
       else []) := by
  have hstop : stopTimeTracking jid now ⟨some s, some r1, true⟩ =
      (initialTracking,
       if 0 < elapsedMinutes s now then [ApiWrite.addTimeSpent jid r1 (elapsedMinutes s now)]
       else []) := by
    simp [stopTimeTracking, initialTracking]
  refine ⟨?_, hstop⟩
  have hstart : startTimeTracking jid now none (some ps) initialTracking r2.id =
      (⟨some now, some r2.id, true⟩, [ApiWrite.markInProgress jid r2.id]) := by
    have hcond : ((some ps).bind
        (fun pr => lookupProg pr.progress_by_resource r2.id)).map (·.completed) ≠ some 2 := by
      simpa using hnc
    unfold startTimeTracking
    rw [if_neg (by simp), if_neg hcond]
    simp [stopTimeTracking, initialTracking]
  simp [savePosition, hidx, hstop, hstart]

/-- Witness for claim C9 (amended): switching after 150 seconds flushes two
whole minutes to the previous resource and starts tracking the next one. -/
theorem savePosition_switch_witness :
    savePosition 1 150000 none (some ⟨[]⟩)
      ⟨1, "t", "g", "beginner", "ready",
        [⟨"r1", "u1", "t1", "video", "beginner", 1⟩,
         ⟨"r2", "u2", "t2", "blog", "beginner", 1⟩], []⟩
      ⟨some 0, some "r1", true⟩ 1 =
      (⟨some 150000, some "r2", true⟩,
       (if 0 < elapsedMinutes 0 150000 then
          [ApiWrite.addTimeSpent 1 "r1" (elapsedMinutes 0 150000)]
        else []) ++ [ApiWrite.markInProgress 1 "r2"]) ∧
    stopTimeTracking 1 150000 ⟨some 0, some "r1", true⟩ =
      (initialTracking,
       if 0 < elapsedMinutes 0 150000 then
         [ApiWrite.addTimeSpent 1 "r1" (elapsedMinutes 0 150000)]
       else []) :=
  savePosition_switch 1 150000 0
    ⟨1, "t", "g", "beginner", "ready",
      [⟨"r1", "u1", "t1", "video", "beginner", 1⟩,
       ⟨"r2", "u2", "t2", "blog", "beginner", 1⟩], []⟩
    1 ⟨"r2", "u2", "t2", "blog", "beginner", 1⟩ (by decide) "r1" ⟨[]⟩ (by decide)

/-- Math.round for the non-negative values arising here: the floor of
`x + 1/2`. -/
def jsRound (x : ℚ) : ℤ := ⌊x + 1 / 2⌋

/-- JS `n || 1` on a resource count (0 is falsy). -/
def jsOrOne (n : Nat) : Nat := if n = 0 then 1 else n

/-- `overallProgress` (LearningRoadmap, lines 92-97): the rounded percentage
of entries of the supplied progress record whose `completed` is 2 over the
journey's resource count (`journey.resources?.length || 1`), and 0 when no
progress record was supplied. -/
def overallProgress (progress : Option (List (String × ResourceProgress)))
    (j : Journey) : ℤ :=
  match progress with
  | none => 0
  | some pbr =>
      jsRound ((((pbr.filter (fun p => decide (p.2.completed = 2))).length : ℚ) /
        (jsOrOne j.resources.length : ℚ)) * 100)

/-- The completion percentage as the spec phrases it, for comparison with
`overallProgress`: `round(100 * completed_count / total_resources)` where
`completed_count` counts the journey's resources whose progress record shows
`completed == 2` and `total_resources` is the resource-list length. -/
def specCompletionPercentage (pbr : List (String × ResourceProgress)) (j : Journey) : ℤ :=
  jsRound (100 * ((j.resources.filter
      (fun r => decide ((lookupProg pbr r.id).map (·.completed) = some 2))).length : ℚ) /
    (j.resources.length : ℚ))

/-- Counterexample to claim C6: with a progress record holding two completed
entries that belong to no resource of a one-resource journey, the code
computes 200 while the spec's formula gives 0 — the value neither matches the
formula nor stays within 0..100, because the code counts every record entry
rather than the journey's resources. -/
theorem overallProgress_over_100 :
    overallProgress (some [("a", ⟨2, 0⟩), ("b", ⟨2, 0⟩)])
      ⟨1, "t", "g", "beginner", "ready", [⟨"r1", "u1", "t1", "video", "beginner", 1⟩], []⟩
      = 200 ∧
    specCompletionPercentage [("a", ⟨2, 0⟩), ("b", ⟨2, 0⟩)]
      ⟨1, "t", "g", "beginner", "ready", [⟨"r1", "u1", "t1", "video", "beginner", 1⟩], []⟩
      = 0 ∧
    ¬ overallProgress (some [("a", ⟨2, 0⟩), ("b", ⟨2, 0⟩)])
      ⟨1, "t", "g", "beginner", "ready", [⟨"r1", "u1", "t1", "video", "beginner", 1⟩], []⟩
      ≤ 100 := by
  have hcode : ([("a", (⟨2, 0⟩ : ResourceProgress)), ("b", ⟨2, 0⟩)].filter
      (fun p => decide (p.2.completed = 2))).length = 2 := by decide
  have hspec : ([(⟨"r1", "u1", "t1", "video", "beginner", 1⟩ : Resource)].filter
      (fun r => decide ((lookupProg [("a", ⟨2, 0⟩), ("b", ⟨2, 0⟩)] r.id).map
        (·.completed) = some 2))).length = 0 := by decide
  refine ⟨?_, ?_, ?_⟩ <;>
    simp only [overallProgress, specCompletionPercentage, hcode, hspec, jsOrOne, jsRound] <;>
    norm_num

theorem count_completed_eq (pbr : List (String × ResourceProgress)) (ids : List String)
    (hk : ∀ k ∈ pbr.map Prod.fst, k ∈ ids) (hnodk : (pbr.map Prod.fst).Nodup)
    (hnodi : ids.Nodup) :
    (pbr.filter (fun p => decide (p.2.completed = 2))).length =
    (ids.filter
      (fun rid => decide ((lookupProg pbr rid).map (·.completed) = some 2))).length := by
  induction pbr generalizing ids with
  | nil =>
      simp [lookupProg, List.find?]
  | cons e rest ih =>
      have hkmem : e.1 ∈ ids := hk e.1 (by simp)
      have hperm : List.Perm ids (e.1 :: ids.erase e.1) := List.perm_cons_erase hkmem
      have hkeynotin : e.1 ∉ rest.map Prod.fst := by
        have := hnodk
        simp only [List.map_cons, List.nodup_cons] at this
        exact this.1
      have hfilter :
          (ids.filter
            (fun rid => decide ((lookupProg (e :: rest) rid).map (·.completed) = some 2))).length =
          ((e.1 :: ids.erase e.1).filter
            (fun rid => decide ((lookupProg (e :: rest) rid).map (·.completed) = some 2))).length :=
        (hperm.filter _).length_eq
      have hcongr :
          (ids.erase e.1).filter
            (fun rid => decide ((lookupProg (e :: rest) rid).map (·.completed) = some 2)) =
          (ids.erase e.1).filter
            (fun rid => decide ((lookupProg rest rid).map (·.completed) = some 2)) := by
        refine List.filter_congr ?_
        intro x hx
        have hxne : x ≠ e.1 := ((hnodi.mem_erase_iff).1 hx).1
        have : lookupProg (e :: rest) x = lookupProg rest x := by
          rw [lookupProg_cons, if_neg (fun hc => hxne hc.symm)]
        rw [this]
      have hrest := ih (ids.erase e.1)
        (fun k hkr => by
          have hkne : k ≠ e.1 := fun hc => hkeynotin (hc ▸ hkr)
          exact (hnodi.mem_erase_iff).2 ⟨hkne, hk k (by simp [hkr])⟩)
        (by
          simp only [List.map_cons, List.nodup_cons] at hnodk
          exact hnodk.2)
        (hnodi.erase e.1)
      have hself : lookupProg (e :: rest) e.1 = some e.2 := by
        rw [lookupProg_cons, if_pos rfl]
      by_cases hc : e.2.completed = 2
      · simp only [List.filter_cons, hfilter, hself, hcongr]
        simp [hrest, hc]
      · simp only [List.filter_cons, hfilter, hself, hcongr]
        simp [hrest, hc]

/-- Claim C6 amended: `overallProgress` counts every entry of the progress
record, so it equals `round(100 * completed_count / total_resources)` and
lies within 0..100 whenever the record's keys are exactly drawn (without
duplicates) from the journey's non-empty, duplicate-free resource ids; a
record entry outside the journey's resources inflates it arbitrarily. -/
theorem jsRound_percent_bounds (c n : Nat) (hcn : c ≤ n) (hn : 0 < n) :
    jsRound (((c : ℚ) / (jsOrOne n : ℚ)) * 100) = jsRound (100 * (c : ℚ) / (n : ℚ)) ∧
    0 ≤ jsRound (((c : ℚ) / (jsOrOne n : ℚ)) * 100) ∧
    jsRound (((c : ℚ) / (jsOrOne n : ℚ)) * 100) ≤ 100 := by
  have hOr : jsOrOne n = n := by
    simp only [jsOrOne]
    rw [if_neg (by omega)]
  have hnq : (0 : ℚ) < (n : ℚ) := by exact_mod_cast hn
  have harg : ((c : ℚ) / (jsOrOne n : ℚ)) * 100 = 100 * (c : ℚ) / (n : ℚ) := by
    rw [hOr]; ring
  have hargnn : (0 : ℚ) ≤ ((c : ℚ) / (jsOrOne n : ℚ)) * 100 := by
    rw [hOr]; positivity
  have hargle : ((c : ℚ) / (jsOrOne n : ℚ)) * 100 ≤ 100 := by
    rw [harg, div_le_iff₀ hnq]
    have hcq : (c : ℚ) ≤ (n : ℚ) := by exact_mod_cast hcn
    nlinarith
  refine ⟨by rw [harg], ?_, ?_⟩
  · exact Int.le_floor.2 (by push_cast; linarith)
  · have h101 : ((c : ℚ) / (jsOrOne n : ℚ)) * 100 + 1 / 2 < ((101 : ℤ) : ℚ) := by
      push_cast; linarith
    exact Int.lt_add_one_iff.1 (Int.floor_lt.2 h101)

theorem overallProgress_eq_spec (pbr : List (String × ResourceProgress)) (j : Journey)
    (hne : j.resources ≠ [])
    (hk : ∀ k ∈ pbr.map Prod.fst, k ∈ j.resources.map Resource.id)
    (hnodk : (pbr.map Prod.fst).Nodup) (hnodi : (j.resources.map Resource.id).Nodup) :
    overallProgress (some pbr) j = specCompletionPercentage pbr j ∧
    0 ≤ overallProgress (some pbr) j ∧ overallProgress (some pbr) j ≤ 100 := by
  have hlenpos : 0 < j.resources.length := List.length_pos.2 hne
  have hids :
      ((j.resources.map Resource.id).filter
        (fun rid => decide ((lookupProg pbr rid).map (·.completed) = some 2))).length =
      (j.resources.filter
        (fun r => decide ((lookupProg pbr r.id).map (·.completed) = some 2))).length := by
    rw [List.filter_map, List.length_map]
    rfl
  have hcnt :
      (pbr.filter (fun p => decide (p.2.completed = 2))).length =
      (j.resources.filter
        (fun r => decide ((lookupProg pbr r.id).map (·.completed) = some 2))).length := by
    rw [← hids]
    exact count_completed_eq pbr (j.resources.map Resource.id) hk hnodk hnodi
  have hle : (pbr.filter (fun p => decide (p.2.completed = 2))).length ≤
      j.resources.length := by
    rw [hcnt]; exact List.length_filter_le _ _
  have hb := jsRound_percent_bounds (pbr.filter (fun p => decide (p.2.completed = 2))).length
      j.resources.length hle hlenpos
  have hb1 := hb.1
  have hb2 := hb.2.1
  have hb3 := hb.2.2
  have hcode : overallProgress (some pbr) j =
      jsRound ((((pbr.filter (fun p => decide (p.2.completed = 2))).length : ℚ) /
        (jsOrOne j.resources.length : ℚ)) * 100) := rfl
  have hspec : specCompletionPercentage pbr j =
      jsRound (100 * (((pbr.filter (fun p => decide (p.2.completed = 2))).length : ℚ)) /
        (j.resources.length : ℚ)) := by
    simp only [specCompletionPercentage, hcnt]
  exact ⟨by rw [hcode, hspec, hb1], by rw [hcode]; exact hb2, by rw [hcode]; exact hb3⟩

/-- Witness for claim C6 (amended): one completed resource out of two gives
50 percent both ways. -/
theorem overallProgress_eq_spec_witness :
    overallProgress (some [("r1", ⟨2, 3⟩)])
      ⟨1, "t", "g", "beginner", "ready",
        [⟨"r1", "u1", "t1", "video", "beginner", 1⟩,
         ⟨"r2", "u2", "t2", "blog", "beginner", 1⟩], []⟩ =
      specCompletionPercentage [("r1", ⟨2, 3⟩)]
        ⟨1, "t", "g", "beginner", "ready",
          [⟨"r1", "u1", "t1", "video", "beginner", 1⟩,
           ⟨"r2", "u2", "t2", "blog", "beginner", 1⟩], []⟩ ∧
    0 ≤ overallProgress (some [("r1", ⟨2, 3⟩)])
      ⟨1, "t", "g", "beginner", "ready",
        [⟨"r1", "u1", "t1", "video", "beginner", 1⟩,
         ⟨"r2", "u2", "t2", "blog", "beginner", 1⟩], []⟩ ∧
    overallProgress (some [("r1", ⟨2, 3⟩)])
      ⟨1, "t", "g", "beginner", "ready",
        [⟨"r1", "u1", "t1", "video", "beginner", 1⟩,
         ⟨"r2", "u2", "t2", "blog", "beginner", 1⟩], []⟩ ≤ 100 :=
  overallProgress_eq_spec [("r1", ⟨2, 3⟩)]
    ⟨1, "t", "g", "beginner", "ready",
      [⟨"r1", "u1", "t1", "video", "beginner", 1⟩,
       ⟨"r2", "u2", "t2", "blog", "beginner", 1⟩], []⟩
    (by decide) (by decide) (by decide) (by decide)

/-- What the journey detail page renders. -/
inductive DetailRender where
  | loadingView
  | emptyView
  | notReadyView
  | learningView (journey : Journey) (currentIndex : Nat)
deriving Repr, DecidableEq

/-- Render dispatch of `JourneyDetailPage` (journey page, lines 408-445):
the loading screen, nothing when unauthenticated, a generic "Journey Not
Ready" card whenever the journey is missing, its status is not `ready`, or
its resource list is empty, and the full learning view otherwise. -/
def renderJourneyDetail (authLoading loading isAuthenticated : Bool)
    (journey : Option Journey) (currentResourceIndex : Nat) : DetailRender :=
  if authLoading || loading then DetailRender.loadingView
  else if !isAuthenticated then DetailRender.emptyView
  else
    match journey with
    | none => DetailRender.notReadyView
    | some j =>
        if j.status ≠ "ready" ∨ j.resources = [] then DetailRender.notReadyView
        else DetailRender.learningView j currentResourceIndex

/-- What the journey preview page renders. -/
inductive PreviewRender where
  | loadingView
  | emptyView
  | statusCard (heading : String)
  | previewView (journey : Journey)
deriving Repr, DecidableEq

/-- The heading of the preview page's not-ready card (part_011, lines
71-76): distinct text per in-flight status, "Journey not found" when the
journey is missing, and empty otherwise. -/
def previewStatusHeading (journey : Option Journey) : String :=
  match journey with
  | none => "Journey not found"
  | some j =>
      if j.status = "pending" then "Preparing your journey..."
      else if j.status = "scraping" then "Finding resources..."
      else if j.status = "curating" then "Organizing your path..."
      else ""

/-- Render dispatch of `JourneyPreviewPage` (part_011, lines 53-82). -/
def renderJourneyPreview (authLoading loading isAuthenticated : Bool)
    (journey : Option Journey) : PreviewRender :=
  if authLoading || loading then PreviewRender.loadingView
  else if !isAuthenticated then PreviewRender.emptyView
  else
    match journey with
    | none => PreviewRender.statusCard (previewStatusHeading none)
    | some j =>
        if j.status ≠ "ready" ∨ j.resources = [] then
          PreviewRender.statusCard (previewStatusHeading (some j))
        else PreviewRender.previewView j

/-- Counterexample to claim C7: the journey detail page renders the same
generic "Journey Not Ready" card for a pending journey and for a scraping
journey — it exposes no distinct indication of the journey's current
status. -/
theorem journeyDetail_status_indistinct :
    renderJourneyDetail false false true
      (some ⟨1, "t", "g", "beginner", "pending", [], []⟩) 0 = DetailRender.notReadyView ∧
    renderJourneyDetail false false true
      (some ⟨1, "t", "g", "beginner", "scraping", [], []⟩) 0 = DetailRender.notReadyView ∧
    ("pending" : String) ≠ "scraping" := by decide

/-- Claim C7 amended: the preview page renders a status card with a
distinct heading for pending, scraping and curating journeys, while the
detail page collapses every non-ready state into one generic card; on both
pages the full learning (or preview) view is rendered exactly when the
journey's status is `ready` and its resource list is non-empty. -/
theorem journeyPages_status_rendering (j : Journey) :
    (renderJourneyPreview false false true (some j) = PreviewRender.previewView j ↔
      j.status = "ready" ∧ j.resources ≠ []) ∧
    (j.status ≠ "ready" ∨ j.resources = [] →
      renderJourneyPreview false false true (some j) =
        PreviewRender.statusCard (previewStatusHeading (some j))) ∧
    (j.status = "pending" → previewStatusHeading (some j) = "Preparing your journey...") ∧
    (j.status = "scraping" → previewStatusHeading (some j) = "Finding resources...") ∧
    (j.status = "curating" → previewStatusHeading (some j) = "Organizing your path...") ∧
    (renderJourneyDetail false false true (some j) 0 = DetailRender.learningView j 0 ↔
      j.status = "ready" ∧ j.resources ≠ []) ∧
    (j.status ≠ "ready" ∨ j.resources = [] →
      renderJourneyDetail false false true (some j) 0 = DetailRender.notReadyView) := by
  refine ⟨?_, ?_, ?_, ?_, ?_, ?_, ?_⟩
  · by_cases hs : j.status = "ready"
    · by_cases hr : j.resources = []
      · simp [renderJourneyPreview, hs, hr]
      · simp [renderJourneyPreview, hs, hr]
    · simp [renderJourneyPreview, hs]
  · intro h
    have : (j.status ≠ "ready" ∨ j.resources = []) = True := by simp [h]
    simp [renderJourneyPreview, this]
  · intro h; simp [previewStatusHeading, h]
  · intro h; simp [previewStatusHeading, h]
  · intro h; simp [previewStatusHeading, h]
  · by_cases hs : j.status = "ready"
    · by_cases hr : j.resources = []
      · simp [renderJourneyDetail, hs, hr]
      · simp [renderJourneyDetail, hs, hr]
    · simp [renderJourneyDetail, hs]
  · intro h
    have : (j.status ≠ "ready" ∨ j.resources = []) = True := by simp [h]
    simp [renderJourneyDetail, this]

/-- Witness for claim C7 (amended) at a concrete scraping journey. -/
theorem journeyPages_status_rendering_witness :
    (renderJourneyPreview false false true
        (some ⟨1, "t", "g", "beginner", "scraping", [], []⟩) =
      PreviewRender.previewView ⟨1, "t", "g", "beginner", "scraping", [], []⟩ ↔
      (⟨1, "t", "g", "beginner", "scraping", [], []⟩ : Journey).status = "ready" ∧
        (⟨1, "t", "g", "beginner", "scraping", [], []⟩ : Journey).resources ≠ []) ∧
    ((⟨1, "t", "g", "beginner", "scraping", [], []⟩ : Journey).status ≠ "ready" ∨
        (⟨1, "t", "g", "beginner", "scraping", [], []⟩ : Journey).resources = [] →
      renderJourneyPreview false false true
          (some ⟨1, "t", "g", "beginner", "scraping", [], []⟩) =
        PreviewRender.statusCard
          (previewStatusHeading (some ⟨1, "t", "g", "beginner", "scraping", [], []⟩))) ∧
    ((⟨1, "t", "g", "beginner", "scraping", [], []⟩ : Journey).status = "pending" →
      previewStatusHeading (some ⟨1, "t", "g", "beginner", "scraping", [], []⟩) =
        "Preparing your journey...") ∧
    ((⟨1, "t", "g", "beginner", "scraping", [], []⟩ : Journey).status = "scraping" →
      previewStatusHeading (some ⟨1, "t", "g", "beginner", "scraping", [], []⟩) =
        "Finding resources...") ∧
    ((⟨1, "t", "g", "beginner", "scraping", [], []⟩ : Journey).status = "curating" →
      previewStatusHeading (some ⟨1, "t", "g", "beginner", "scraping", [], []⟩) =
        "Organizing your path...") ∧
    (renderJourneyDetail false false true
        (some ⟨1, "t", "g", "beginner", "scraping", [], []⟩) 0 =
      DetailRender.learningView ⟨1, "t", "g", "beginner", "scraping", [], []⟩ 0 ↔
      (⟨1, "t", "g", "beginner", "scraping", [], []⟩ : Journey).status = "ready" ∧
        (⟨1, "t", "g", "beginner", "scraping", [], []⟩ : Journey).resources ≠ []) ∧
    ((⟨1, "t", "g", "beginner", "scraping", [], []⟩ : Journey).status ≠ "ready" ∨
        (⟨1, "t", "g", "beginner", "scraping", [], []⟩ : Journey).resources = [] →
      renderJourneyDetail false false true
          (some ⟨1, "t", "g", "beginner", "scraping", [], []⟩) 0 =
        DetailRender.notReadyView) :=
  journeyPages_status_rendering ⟨1, "t", "g", "beginner", "scraping", [], []⟩

/-- A chat message (`services/api.ts`, `ChatMessage`). -/
structure ChatMessage where
  role : String
  content : String
  timestamp : Option String
deriving Repr, DecidableEq

/-- The fields of a chat start/respond response that the handlers read.
Optional strings model possibly-undefined response fields. -/
structure ChatResponse where
  response : Option String
  answer : Option String
  conversation_id : Option String
  questions : List String
  ready : Bool
  journey_id : Option Nat
deriving Repr, DecidableEq

/-- JS `String.prototype.trim`: strip leading and trailing whitespace
(modelled over the character list). -/
def jsTrim (s : String) : String :=
  ⟨((s.data.dropWhile Char.isWhitespace).reverse.dropWhile Char.isWhitespace).reverse⟩

/-- JS `a || b` on possibly-undefined strings (an empty string is falsy); an
undefined result is rendered as the empty string. -/
def jsOrString (a b : Option String) : String :=
  match a with
  | some s => if s = "" then b.getD "" else s
  | none => b.getD ""

/-- Whether `pat` occurs as a contiguous substring of `s` (character-list
search; used for the format-keyword scan of the start page). -/
def strContainsSub (s pat : String) : Bool :=
  go s.data pat.data
where
  go : List Char → List Char → Bool
    | l, pat =>
      pat.isPrefixOf l ||
        match l with
        | [] => false
        | _ :: rest => go rest pat

/-- The format keywords scanned by the start page (utils list at line
230). -/
def formatKeywords : List String :=
  ["video", "article", "documentation", "format", "prefer", "reading",
   "watching", "tutorial", "blog", "doc"]

/-- Whether any suggested question mentions a format keyword (start page,
lines 230-234). -/
def isFormatRelated (questions : List String) : Bool :=
  questions.any (fun q => formatKeywords.any (fun kw => strContainsSub q.toLower kw))

/-- The component state of `StartPageContent` that `handleSendMessage`
touches. -/
structure StartPageState where
  messages : List ChatMessage
  input : String
  loading : Bool
  conversationId : Option String
  selectedConversationId : Option String
  refreshKey : Nat
  suggestions : List String
  isReady : Bool
  journeyId : Option Nat
  showFormatSelector : Bool
deriving Repr, DecidableEq

/-- The text actually sent: `messageText || input` (an empty explicit
message falls back to the input field). -/
def startMessageText (st : StartPageState) (messageText : Option String) : String :=
  match messageText with
  | some t => if t = "" then st.input else t
  | none => st.input

/-- `handleSendMessage` of `StartPageContent` (start page, lines 199-254),
as a function of the backend call's result (`none` models a thrown
request).  On failure the fallback assistant reply is appended after the
just-sent user message and nothing else changes except the cleared input
and loading flag. -/
def handleSendMessageStart (st : StartPageState) (messageText : Option String)
    (result : Option ChatResponse) : StartPageState :=
  if jsTrim (startMessageText st messageText) = "" then st
  else if st.loading then st
  else
    let newMessages : List ChatMessage :=
      st.messages ++ [⟨"user", startMessageText st messageText, none⟩]
    match result with
    | none =>
        { st with
          messages := newMessages ++
            [⟨"assistant", "Sorry, I encountered an error. Please try again.", none⟩],
          input := "", loading := false }
    | some resp =>
        let st1 : StartPageState := { st with
          messages := newMessages ++ [⟨"assistant", resp.response.getD "", none⟩],
          input := "", loading := false }
        let st2 := match resp.conversation_id with
          | some cid =>
              if cid = "" then st1
              else
                { st1 with
                  conversationId := some cid
                  selectedConversationId := some cid
                  refreshKey := st1.refreshKey + 1 }
          | none => st1
        let st3 :=
          if resp.questions ≠ [] then
            { st2 with
              suggestions := resp.questions
              showFormatSelector := isFormatRelated resp.questions }
          else { st2 with suggestions := [], showFormatSelector := false }
        if resp.ready && (match resp.journey_id with | some k => decide (k ≠ 0) | none => false) then
          { st3 with isReady := true, journeyId := resp.journey_id }
        else st3

/-- The component state of `ChatPage` that `handleSendMessage` touches. -/
structure ChatPageState where
  messages : List ChatMessage
  input : String
  loading : Bool
  conversationId : Option String
  selectedConversationId : Option String
  refreshKey : Nat
deriving Repr, DecidableEq

/-- `handleSendMessage` of `ChatPage` (chat page, lines 33-83), as a
function of the backend call's result (`none` models a thrown request). -/
def handleSendMessageChat (st : ChatPageState) (nowTs : String)
    (result : Option ChatResponse) : ChatPageState :=
  if jsTrim st.input = "" then st
  else if st.loading then st
  else
    let newMessages : List ChatMessage := st.messages ++ [⟨"user", jsTrim st.input, some nowTs⟩]
    match result with
    | none =>
        { st with
          messages := newMessages ++
            [⟨"assistant", "Sorry, I encountered an error. Please try again.", some nowTs⟩],
          input := "", loading := false }
    | some resp =>
        let st1 : ChatPageState := { st with
          messages := newMessages ++
            [⟨"assistant", jsOrString resp.response resp.answer, some nowTs⟩],
          input := "", loading := false }
        match resp.conversation_id with
        | some cid =>
            if cid = "" then st1
            else
              { st1 with
                conversationId := some cid
                selectedConversationId := some cid
                refreshKey := st1.refreshKey + 1 }
        | none => st1

/-- Claim C8: when the start/respond call fails, both chat handlers append
the user's just-sent message followed by the fallback assistant reply to the
already-accumulated history, and the start page's journey-ready flag is left
untouched (so it remains false). -/
theorem chat_failure_preserves_history (st : StartPageState) (mt : Option String)
    (stc : ChatPageState) (ts : String)
    (h1 : jsTrim (startMessageText st mt) ≠ "") (h2 : st.loading = false)
    (h3 : jsTrim stc.input ≠ "") (h4 : stc.loading = false) :
    handleSendMessageStart st mt none =
      { st with
        messages := st.messages ++
          [⟨"user", startMessageText st mt, none⟩,
           ⟨"assistant", "Sorry, I encountered an error. Please try again.", none⟩],
        input := "", loading := false } ∧
    (handleSendMessageStart st mt none).isReady = st.isReady ∧
    handleSendMessageChat stc ts none =
      { stc with
        messages := stc.messages ++
          [⟨"user", jsTrim stc.input, some ts⟩,
           ⟨"assistant", "Sorry, I encountered an error. Please try again.", some ts⟩],
        input := "", loading := false } := by
  have hs : handleSendMessageStart st mt none =
      { st with
        messages := (st.messages ++ [⟨"user", startMessageText st mt, none⟩]) ++
          [⟨"assistant", "Sorry, I encountered an error. Please try again.", none⟩],
        input := "", loading := false } := by
    unfold handleSendMessageStart
    rw [if_neg h1, if_neg (by rw [h2]; exact Bool.false_ne_true)]
  have hc : handleSendMessageChat stc ts none =
      { stc with
        messages := (stc.messages ++ [⟨"user", jsTrim stc.input, some ts⟩]) ++
          [⟨"assistant", "Sorry, I encountered an error. Please try again.", some ts⟩],
        input := "", loading := false } := by
    unfold handleSendMessageChat
    rw [if_neg h3, if_neg (by rw [h4]; exact Bool.false_ne_true)]
  refine ⟨?_, ?_, ?_⟩
  · rw [hs]; simp
  · rw [hs]
  · rw [hc]; simp

/-- Witness for claim C8 at a concrete one-message history. -/
theorem chat_failure_preserves_history_witness :
    (handleSendMessageStart
        ⟨[⟨"assistant", "hi", none⟩], "learn go", false, none, none, 0, [], false, none, false⟩
        none none).messages =
      [⟨"assistant", "hi", none⟩, ⟨"user", "learn go", none⟩,
       ⟨"assistant", "Sorry, I encountered an error. Please try again.", none⟩] ∧
    (handleSendMessageStart
        ⟨[⟨"assistant", "hi", none⟩], "learn go", false, none, none, 0, [], false, none, false⟩
        none none).isReady = false ∧
    (handleSendMessageChat ⟨[⟨"assistant", "hi", none⟩], "learn go", false, none, none, 0⟩
        "2024-01-01" none).messages =
      [⟨"assistant", "hi", none⟩, ⟨"user", "learn go", some "2024-01-01"⟩,
       ⟨"assistant", "Sorry, I encountered an error. Please try again.",
         some "2024-01-01"⟩] := by
  have h := chat_failure_preserves_history
    ⟨[⟨"assistant", "hi", none⟩], "learn go", false, none, none, 0, [], false, none, false⟩
    none ⟨[⟨"assistant", "hi", none⟩], "learn go", false, none, none, 0⟩ "2024-01-01"
    (by decide) rfl (by decide) rfl
  refine ⟨?_, ?_, ?_⟩
  · rw [h.1]; rfl
  · rw [h.2.1]
  · rw [h.2.2]; rfl

/-- The `latestCompletedIndex` scan of `loadJourneyData` (journey page,
lines 149-157): index of the last resource whose progress shows
`completed === 2`, or -1 when there is none. -/
def latestCompletedIndex (resources : List Resource)
    (pbr : List (String × ResourceProgress)) : Int :=
  resources.enum.foldl
    (fun acc p =>
      if (lookupProg pbr p.2.id).map (·.completed) = some 2 then (p.1 : Int) else acc)
    (-1)

/-- The initial resource index computed by `loadJourneyData` (journey page,
lines 145-185): one past the latest completed resource, clamped to the last
index; otherwise the stored last position when one was returned (`none`
models both a failed `getLastPosition` call and a null `last_position`);
otherwise 0. -/
def computeInitialIndex (resources : List Resource)
    (progressData : Option ProgressSummary) (lastPos : Option Int) : Int :=
  match progressData with
  | some pd =>
      if 0 ≤ latestCompletedIndex resources pd.progress_by_resource then
        min (latestCompletedIndex resources pd.progress_by_resource + 1)
          ((resources.length : Int) - 1)
      else lastPos.getD 0
  | none => lastPos.getD 0

/-- Counterexample to claim C10: with a one-resource journey, no completed
resource, and a stored last position of 5, `loadJourneyData` selects index
5, which is not a valid index into the resource list — the stored position
is used unclamped. -/
theorem computeInitialIndex_out_of_bounds :
    computeInitialIndex [⟨"r1", "u1", "t1", "video", "beginner", 1⟩] (some ⟨[]⟩)
      (some 5) = 5 ∧
    ¬ (5 : Int) < ([⟨"r1", "u1", "t1", "video", "beginner", 1⟩] : List Resource).length := by
  decide

theorem latestCompletedIndex_lt (resources : List Resource)
    (pbr : List (String × ResourceProgress)) :
    -1 ≤ latestCompletedIndex resources pbr ∧
    latestCompletedIndex resources pbr < (resources.length : Int) := by
  have hgen : ∀ (l : List (Nat × Resource)) (acc : Int) (n : Int),
      (∀ p ∈ l, (p.1 : Int) < n) → -1 ≤ acc → acc < n →
      -1 ≤ l.foldl
          (fun acc p =>
            if (lookupProg pbr p.2.id).map (·.completed) = some 2 then (p.1 : Int) else acc)
          acc ∧
      l.foldl
          (fun acc p =>
            if (lookupProg pbr p.2.id).map (·.completed) = some 2 then (p.1 : Int) else acc)
          acc < n := by
    intro l
    induction l with
    | nil => intro acc n _ h1 h2; exact ⟨h1, h2⟩
    | cons p rest ih =>
        intro acc n hmem h1 h2
        simp only [List.foldl_cons]
        by_cases hc : (lookupProg pbr p.2.id).map (·.completed) = some 2
        · rw [if_pos hc]
          exact ih _ n (fun q hq => hmem q (by simp [hq]))
            (by omega) (hmem p (by simp))
        · rw [if_neg hc]
          exact ih _ n (fun q hq => hmem q (by simp [hq])) h1 h2
  refine hgen resources.enum (-1) (resources.length : Int) ?_ le_rfl ?_
  · intro p hp
    have : p.1 < resources.length := by
      have := List.mem_enum_iff_getElem?.1 hp
      have := List.getElem?_eq_some_iff.1 this
      exact this.1
    exact_mod_cast this
  · omega

/-- Claim C10 amended: the initial index is a valid index into the resource
list whenever some resource is completed (the advance-past-latest branch is
always clamped into range), and in the fallback branch whenever the stored
last position is absent (index 0) or itself within range; an out-of-range
stored last position is used unclamped and indexes out of bounds. -/
theorem computeInitialIndex_valid (resources : List Resource) (pd : ProgressSummary)
    (lastPos : Option Int) (hne : resources ≠ []) :
    (0 ≤ latestCompletedIndex resources pd.progress_by_resource →
      0 ≤ computeInitialIndex resources (some pd) lastPos ∧
      computeInitialIndex resources (some pd) lastPos < (resources.length : Int)) ∧
    (∀ p, lastPos = some p → 0 ≤ p → p < (resources.length : Int) →
      0 ≤ computeInitialIndex resources (some pd) lastPos ∧
      computeInitialIndex resources (some pd) lastPos < (resources.length : Int)) ∧
    (lastPos = none →
      0 ≤ computeInitialIndex resources (some pd) lastPos ∧
      computeInitialIndex resources (some pd) lastPos < (resources.length : Int)) := by
  have hlen : 0 < resources.length := List.length_pos.2 hne
  have hlenq : (1 : Int) ≤ (resources.length : Int) := by exact_mod_cast hlen
  have hlt := latestCompletedIndex_lt resources pd.progress_by_resource
  refine ⟨?_, ?_, ?_⟩
  · intro hge
    have : computeInitialIndex resources (some pd) lastPos =
        min (latestCompletedIndex resources pd.progress_by_resource + 1)
          ((resources.length : Int) - 1) := by
      simp only [computeInitialIndex]
      rw [if_pos hge]
    rw [this]
    constructor
    · exact le_min (by omega) (by omega)
    · have h1 : min (latestCompletedIndex resources pd.progress_by_resource + 1)
          ((resources.length : Int) - 1) ≤ (resources.length : Int) - 1 :=
        min_le_right _ _
      omega
  · intro p hp h0 hplt
    by_cases hge : 0 ≤ latestCompletedIndex resources pd.progress_by_resource
    · have : computeInitialIndex resources (some pd) lastPos =
          min (latestCompletedIndex resources pd.progress_by_resource + 1)
            ((resources.length : Int) - 1) := by
        simp only [computeInitialIndex]
        rw [if_pos hge]
      rw [this]
      constructor
      · exact le_min (by omega) (by omega)
      · have h1 : min (latestCompletedIndex resources pd.progress_by_resource + 1)
            ((resources.length : Int) - 1) ≤ (resources.length : Int) - 1 :=
          min_le_right _ _
        omega
    · have : computeInitialIndex resources (some pd) lastPos = p := by
        simp only [computeInitialIndex]
        rw [if_neg hge, hp]
        rfl
      rw [this]
      exact ⟨h0, hplt⟩
  · intro hp
    by_cases hge : 0 ≤ latestCompletedIndex resources pd.progress_by_resource
    · have : computeInitialIndex resources (some pd) lastPos =
          min (latestCompletedIndex resources pd.progress_by_resource + 1)
            ((resources.length : Int) - 1) := by
        simp only [computeInitialIndex]
        rw [if_pos hge]
      rw [this]
      constructor
      · exact le_min (by omega) (by omega)
      · have h1 : min (latestCompletedIndex resources pd.progress_by_resource + 1)
            ((resources.length : Int) - 1) ≤ (resources.length : Int) - 1 :=
          min_le_right _ _
        omega
    · have : computeInitialIndex resources (some pd) lastPos = 0 := by
        simp only [computeInitialIndex]
        rw [if_neg hge, hp]
        rfl
      rw [this]
      omega

/-- Witness for claim C10 (amended) at a concrete journey with a completed
first resource out of two. -/
theorem computeInitialIndex_valid_witness :
    (0 ≤ latestCompletedIndex
        [⟨"r1", "u1", "t1", "video", "beginner", 1⟩,
         ⟨"r2", "u2", "t2", "blog", "beginner", 1⟩]
        (⟨[("r1", ⟨2, 0⟩)]⟩ : ProgressSummary).progress_by_resource →
      0 ≤ computeInitialIndex
        [⟨"r1", "u1", "t1", "video", "beginner", 1⟩,
         ⟨"r2", "u2", "t2", "blog", "beginner", 1⟩] (some ⟨[("r1", ⟨2, 0⟩)]⟩) none ∧
      computeInitialIndex
        [⟨"r1", "u1", "t1", "video", "beginner", 1⟩,
         ⟨"r2", "u2", "t2", "blog", "beginner", 1⟩] (some ⟨[("r1", ⟨2, 0⟩)]⟩) none <
        (([⟨"r1", "u1", "t1", "video", "beginner", 1⟩,
           ⟨"r2", "u2", "t2", "blog", "beginner", 1⟩] : List Resource).length : Int)) ∧
    (∀ p, (none : Option Int) = some p → 0 ≤ p →
      p < (([⟨"r1", "u1", "t1", "video", "beginner", 1⟩,
             ⟨"r2", "u2", "t2", "blog", "beginner", 1⟩] : List Resource).length : Int) →
      0 ≤ computeInitialIndex
        [⟨"r1", "u1", "t1", "video", "beginner", 1⟩,
         ⟨"r2", "u2", "t2", "blog", "beginner", 1⟩] (some ⟨[("r1", ⟨2, 0⟩)]⟩) none ∧
      computeInitialIndex
        [⟨"r1", "u1", "t1", "video", "beginner", 1⟩,
         ⟨"r2", "u2", "t2", "blog", "beginner", 1⟩] (some ⟨[("r1", ⟨2, 0⟩)]⟩) none <
        (([⟨"r1", "u1", "t1", "video", "beginner", 1⟩,
           ⟨"r2", "u2", "t2", "blog", "beginner", 1⟩] : List Resource).length : Int)) ∧
    ((none : Option Int) = none →
      0 ≤ computeInitialIndex
        [⟨"r1", "u1", "t1", "video", "beginner", 1⟩,
         ⟨"r2", "u2", "t2", "blog", "beginner", 1⟩] (some ⟨[("r1", ⟨2, 0⟩)]⟩) none ∧
      computeInitialIndex
        [⟨"r1", "u1", "t1", "video", "beginner", 1⟩,
         ⟨"r2", "u2", "t2", "blog", "beginner", 1⟩] (some ⟨[("r1", ⟨2, 0⟩)]⟩) none <
        (([⟨"r1", "u1", "t1", "video", "beginner", 1⟩,
           ⟨"r2", "u2", "t2", "blog", "beginner", 1⟩] : List Resource).length : Int)) :=
  computeInitialIndex_valid
    [⟨"r1", "u1", "t1", "video", "beginner", 1⟩,
     ⟨"r2", "u2", "t2", "blog", "beginner", 1⟩]
    ⟨[("r1", ⟨2, 0⟩)]⟩ none (by decide)

/-- An assembled roadmap section: each resource carries its `globalIndex`
into the journey's resource list. -/
structure SectionOut where
  name : String
  description : Option String
  resources : List (Nat × Resource)
deriving Repr, DecidableEq

/-- Lookup in the `resourceMap` of `LearningRoadmap` (line 26): a JS `Map`
built from `(id, (index, resource))` entries in resource order, so for a
duplicated id the last entry wins. -/
def resourceMapGet (rs : List Resource) (rid : String) : Option (Nat × Resource) :=
  rs.enum.reverse.find? (fun p => decide (p.2.id = rid))

/-- JS `Array.from(new Set(xs))`: first occurrences, in insertion order. -/
def jsSetListAux (seen : List String) : List String → List String
  | [] => []
  | x :: xs => if x ∈ seen then jsSetListAux seen xs else x :: jsSetListAux (x :: seen) xs

/-- JS `Array.from(new Set(xs))` starting from an empty set. -/
def jsSetList (l : List String) : List String := jsSetListAux [] l

/-- The ids of a section's entries that resolve in the resource map — these
are exactly the ids added to `resourcesInSections` (lines 42-47). -/
def foundIds (rs : List Resource) (l : List String) : List String :=
  l.filter (fun rid => (resourceMapGet rs rid).isSome)

/-- All ids collected into `resourcesInSections` while mapping the
journey's declared sections. -/
def inSectionIds (j : Journey) : List String :=
  (j.sections.map (fun s => foundIds j.resources s.resources)).flatten

/-- The leftover bucket of `LearningRoadmap` (lines 51-60): the journey's
resource ids (deduplicated in insertion order) that landed in no section,
resolved through the resource map and sorted by original position. -/
def missingResourcesList (j : Journey) : List (Nat × Resource) :=
  List.insertionSort (fun a b => a.1 ≤ b.1)
    (((jsSetList (j.resources.map Resource.id)).filter
        (fun rid => decide (rid ∉ inSectionIds j))).filterMap
      (resourceMapGet j.resources))

/-- The declared sections after id resolution, with empty sections dropped
(lines 36-49). -/
def declaredSections (j : Journey) : List SectionOut :=
  (j.sections.map (fun s =>
    (⟨s.name, s.description, s.resources.filterMap (resourceMapGet j.resources)⟩ :
      SectionOut))).filter (fun s => decide (s.resources ≠ []))

/-- Append the leftover bucket to the last section and re-sort that
section's resources by original position (lines 62-66). -/
def appendToLast : List SectionOut → List (Nat × Resource) → List SectionOut
  | [], _ => []
  | [s], extra =>
      [{ s with resources := List.insertionSort (fun a b => a.1 ≤ b.1) (s.resources ++ extra) }]
  | s :: s2 :: rest, extra => s :: appendToLast (s2 :: rest) extra

/-- The read-time section assembly of `LearningRoadmap` (lines 26-83):
resolve each declared section's ids, drop empty sections, then place the
leftover resources — appended to the last section, or in an "Additional
Resources" section when every declared section resolved empty; a journey
with no declared sections gets one "Learning Path" section holding every
resource in order. -/
def roadmapSections (j : Journey) : List SectionOut :=
  if j.sections = [] then
    [⟨"Learning Path", some "Your personalized journey", j.resources.enum⟩]
  else if missingResourcesList j = [] then declaredSections j
  else if declaredSections j = [] then
    [⟨"Additional Resources", some "Additional learning materials", missingResourcesList j⟩]
  else appendToLast (declaredSections j) (missingResourcesList j)

/-- The resource ids of one assembled section. -/
def sectionIdList (s : SectionOut) : List String :=
  s.resources.map (fun p => p.2.id)

/-- All resource ids of the assembled roadmap, section by section. -/
def roadmapIds (j : Journey) : List String :=
  ((roadmapSections j).map sectionIdList).flatten

/-- Counterexample to claim C3: when a resource id is listed in two
sections, the assembled roadmap contains it twice — the read-time assembly
deduplicates only the leftover bucket, not ids repeated across sections. -/
theorem roadmap_duplicates_across_sections :
    (roadmapIds
      ⟨1, "t", "g", "beginner", "ready",
        [⟨"r1", "u1", "t1", "video", "beginner", 1⟩,
         ⟨"r2", "u2", "t2", "blog", "beginner", 1⟩],
        [⟨"A", none, ["r1"]⟩, ⟨"B", none, ["r1"]⟩]⟩).count "r1" = 2 ∧
    ((⟨1, "t", "g", "beginner", "ready",
        [⟨"r1", "u1", "t1", "video", "beginner", 1⟩,
         ⟨"r2", "u2", "t2", "blog", "beginner", 1⟩],
        [⟨"A", none, ["r1"]⟩, ⟨"B", none, ["r1"]⟩]⟩ : Journey).resources.map
      Resource.id).count "r1" = 1 := by decide

theorem resourceMapGet_some_id (rs : List Resource) (rid : String) (p : Nat × Resource)
    (h : resourceMapGet rs rid = some p) : p.2.id = rid := by
  have := List.find?_some (show List.find? (fun q => decide (q.2.id = rid))
    rs.enum.reverse = some p from h)
  simpa using this

theorem resourceMapGet_isSome_iff (rs : List Resource) (rid : String) :
    (resourceMapGet rs rid).isSome = true ↔ rid ∈ rs.map Resource.id := by
  rw [resourceMapGet, List.find?_isSome]
  constructor
  · rintro ⟨x, hx, hpx⟩
    have hid : x.2.id = rid := by simpa using hpx
    have hxmem : x ∈ rs.enum := List.mem_reverse.1 hx
    exact List.mem_map.2 ⟨x.2, List.snd_mem_of_mem_enum hxmem, hid⟩
  · intro hmem
    obtain ⟨r, hr, hrid⟩ := List.mem_map.1 hmem
    obtain ⟨i, hi⟩ := List.get_of_mem hr
    refine ⟨(i.1, r), List.mem_reverse.2 ?_, by simpa using hrid⟩
    refine List.mem_enum_iff_getElem?.2 ?_
    rw [List.getElem?_eq_getElem i.2]
    simpa [List.get_eq_getElem] using congrArg some hi

theorem foundIds_eq_map_filterMap (rs : List Resource) (l : List String) :
    (l.filterMap (resourceMapGet rs)).map (fun p => p.2.id) = foundIds rs l := by
  induction l with
  | nil => rfl
  | cons rid rest ih =>
      rw [List.filterMap_cons]
      show _ = (rid :: rest).filter (fun r => (resourceMapGet rs r).isSome)
      rw [List.filter_cons]
      cases hg : resourceMapGet rs rid with
      | none =>
          rw [if_neg (by simp)]
          exact ih
      | some p =>
          have hpid : p.2.id = rid := resourceMapGet_some_id rs rid p hg
          rw [if_pos (by simp)]
          show List.map (fun q => q.2.id) (p :: List.filterMap (resourceMapGet rs) rest) = _
          rw [List.map_cons, hpid]
          exact congrArg (rid :: ·) ih

theorem jsSetListAux_nodup_eq (l : List String) : ∀ (seen : List String),
    (∀ x ∈ l, x ∉ seen) → l.Nodup → jsSetListAux seen l = l := by
  induction l with
  | nil => intro seen _ _; rfl
  | cons x xs ih =>
      intro seen hdisj hnd
      have hx : x ∉ seen := hdisj x (by simp)
      rw [jsSetListAux, if_neg hx]
      congr 1
      refine ih (x :: seen) ?_ (List.nodup_cons.1 hnd).2
      intro y hy
      simp only [List.mem_cons]
      push_neg
      exact ⟨fun he => (List.nodup_cons.1 hnd).1 (he ▸ hy),
        hdisj y (List.mem_cons_of_mem x hy)⟩

theorem jsSetList_nodup_eq (l : List String) (h : l.Nodup) : jsSetList l = l :=
  jsSetListAux_nodup_eq l [] (by simp) h

theorem flatten_map_filter (p : String → Bool) (Ls : List (List String)) :
    (Ls.map (List.filter p)).flatten = Ls.flatten.filter p := by
  induction Ls with
  | nil => rfl
  | cons l rest ih =>
      rw [List.map_cons, List.flatten_cons, List.flatten_cons, List.filter_append, ih]

theorem flatten_filter_nonempty (ss : List SectionOut) :
    ((ss.filter (fun s => decide (s.resources ≠ []))).map sectionIdList).flatten =
      (ss.map sectionIdList).flatten := by
  induction ss with
  | nil => rfl
  | cons s rest ih =>
      rw [List.filter_cons]
      by_cases h : s.resources = []
      · rw [if_neg (by simp [h]), List.map_cons, List.flatten_cons]
        have hnil : sectionIdList s = [] := by simp [sectionIdList, h]
        rw [hnil, List.nil_append, ih]
      · rw [if_pos (by simp [h]), List.map_cons, List.flatten_cons, List.map_cons,
          List.flatten_cons, ih]

theorem declared_flatten_ids_aux (rs : List Resource) (L : List JourneySection) :
    (((L.map (fun s =>
        (⟨s.name, s.description, s.resources.filterMap (resourceMapGet rs)⟩ :
          SectionOut))).map sectionIdList)).flatten =
      (L.map (fun s => foundIds rs s.resources)).flatten := by
  induction L with
  | nil => rfl
  | cons s rest ih =>
      simp only [List.map_cons, List.flatten_cons, ih]
      rw [show sectionIdList
          (⟨s.name, s.description, s.resources.filterMap (resourceMapGet rs)⟩ : SectionOut) =
          foundIds rs s.resources from foundIds_eq_map_filterMap rs s.resources]

theorem declared_flatten_ids (j : Journey) :
    ((declaredSections j).map sectionIdList).flatten = inSectionIds j := by
  unfold declaredSections inSectionIds
  rw [flatten_filter_nonempty]
  exact declared_flatten_ids_aux j.resources j.sections

theorem inSectionIds_eq_filter (j : Journey) :
    inSectionIds j =
      ((j.sections.map JourneySection.resources).flatten).filter
        (fun rid => (resourceMapGet j.resources rid).isSome) := by
  unfold inSectionIds foundIds
  rw [← flatten_map_filter, List.map_map]
  rfl

theorem appendToLast_flatten_perm (extra : List (Nat × Resource)) :
    ∀ ss : List SectionOut, ss ≠ [] →
      List.Perm (((appendToLast ss extra).map sectionIdList).flatten)
        ((ss.map sectionIdList).flatten ++ extra.map (fun p => p.2.id))
  | [], h => absurd rfl h
  | [s], _ => by
      have hp := (List.perm_insertionSort (fun a b : Nat × Resource => a.1 ≤ b.1)
        (s.resources ++ extra)).map (fun p => p.2.id)
      simpa [appendToLast, sectionIdList] using hp
  | s :: s2 :: rest, _ => by
      have ih := appendToLast_flatten_perm extra (s2 :: rest) (by simp)
      simp only [appendToLast, List.map_cons, List.flatten_cons]
      have heq : sectionIdList s ++
          (((s2 :: rest).map sectionIdList).flatten ++ extra.map (fun p => p.2.id)) =
          (sectionIdList s ++ ((s2 :: rest).map sectionIdList).flatten) ++
            extra.map (fun p => p.2.id) := (List.append_assoc _ _ _).symm
      exact heq ▸ (ih.append_left (sectionIdList s))

theorem missing_ids_perm (j : Journey) (hids : (j.resources.map Resource.id).Nodup) :
    List.Perm ((missingResourcesList j).map (fun p => p.2.id))
      ((j.resources.map Resource.id).filter
        (fun rid => decide (rid ∉ inSectionIds j))) := by
  unfold missingResourcesList
  have h1 := (List.perm_insertionSort (fun a b : Nat × Resource => a.1 ≤ b.1)
    (((jsSetList (j.resources.map Resource.id)).filter
        (fun rid => decide (rid ∉ inSectionIds j))).filterMap
      (resourceMapGet j.resources))).map (fun p => p.2.id)
  refine h1.trans ?_
  rw [foundIds_eq_map_filterMap, jsSetList_nodup_eq _ hids]
  have : foundIds j.resources
      ((j.resources.map Resource.id).filter (fun rid => decide (rid ∉ inSectionIds j))) =
      (j.resources.map Resource.id).filter (fun rid => decide (rid ∉ inSectionIds j)) := by
    refine List.filter_eq_self.2 ?_
    intro a ha
    exact (resourceMapGet_isSome_iff j.resources a).2 (List.mem_filter.1 ha).1
  rw [this]

theorem count_partition (ids J : List String) (hids : ids.Nodup) (hJ : J.Nodup)
    (found : String → Bool) (hfound : ∀ a, found a = true ↔ a ∈ ids) :
    List.Perm (J.filter found ++ ids.filter (fun a => decide (a ∉ J))) ids := by
  rw [List.perm_iff_count]
  intro a
  rw [List.count_append]
  have hJf : (J.filter found).Nodup := hJ.filter _
  have hif : (ids.filter (fun a => decide (a ∉ J))).Nodup := hids.filter _
  by_cases hai : a ∈ ids
  · have hfa : found a = true := (hfound a).2 hai
    by_cases haJ : a ∈ J
    · have h1 : a ∈ J.filter found := List.mem_filter.2 ⟨haJ, hfa⟩
      have h2 : a ∉ ids.filter (fun a => decide (a ∉ J)) := by
        intro hmem
        have := (List.mem_filter.1 hmem).2
        simp only [decide_eq_true_eq] at this
        exact this haJ
      rw [List.count_eq_one_of_mem hJf h1, List.count_eq_zero.2 h2,
        List.count_eq_one_of_mem hids hai]
    · have h1 : a ∉ J.filter found := fun hmem => haJ (List.mem_filter.1 hmem).1
      have h2 : a ∈ ids.filter (fun a => decide (a ∉ J)) :=
        List.mem_filter.2 ⟨hai, by simpa using haJ⟩
      rw [List.count_eq_zero.2 h1, List.count_eq_one_of_mem hif h2,
        List.count_eq_one_of_mem hids hai]
  · have h1 : a ∉ J.filter found := by
      intro hmem
      exact hai ((hfound a).1 (List.mem_filter.1 hmem).2)
    have h2 : a ∉ ids.filter (fun a => decide (a ∉ J)) :=
      fun hmem => hai (List.mem_filter.1 hmem).1
    rw [List.count_eq_zero.2 h1, List.count_eq_zero.2 h2, List.count_eq_zero.2 hai]

/-- Claim C3 amended: when no resource id is repeated within or across the
journey's declared sections and the journey's resource ids are themselves
duplicate-free, the assembled sections together with the leftover bucket
contain exactly the journey's resources, each exactly once; an id listed in
several sections, however, is emitted once per listing (see the
counterexample), so the exactly-once guarantee holds only under that
no-repetition hypothesis. -/
theorem roadmap_section_partition (j : Journey)
    (hids : (j.resources.map Resource.id).Nodup)
    (hsec : ((j.sections.map JourneySection.resources).flatten).Nodup) :
    List.Perm (roadmapIds j) (j.resources.map Resource.id) := by
  by_cases h0 : j.sections = []
  · unfold roadmapIds roadmapSections
    rw [if_pos h0]
    have : j.resources.enum.map (fun p => p.2.id) = j.resources.map Resource.id := by
      rw [show (fun (p : Nat × Resource) => p.2.id) = (Resource.id ∘ Prod.snd) from rfl,
        ← List.map_map, List.enum_map_snd]
    simp [sectionIdList, this]
  · have hfound : ∀ a, ((resourceMapGet j.resources a).isSome = true) ↔
        a ∈ j.resources.map Resource.id := fun a => resourceMapGet_isSome_iff j.resources a
    have hins := inSectionIds_eq_filter j
    have hA : ((declaredSections j).map sectionIdList).flatten =
        ((j.sections.map JourneySection.resources).flatten).filter
          (fun rid => (resourceMapGet j.resources rid).isSome) := by
      rw [declared_flatten_ids, hins]
    have hB : List.Perm ((missingResourcesList j).map (fun p => p.2.id))
        ((j.resources.map Resource.id).filter
          (fun a => decide (a ∉ (j.sections.map JourneySection.resources).flatten))) := by
      refine (missing_ids_perm j hids).trans ?_
      have hcongr : (j.resources.map Resource.id).filter
          (fun rid => decide (rid ∉ inSectionIds j)) =
          (j.resources.map Resource.id).filter
            (fun a => decide (a ∉ (j.sections.map JourneySection.resources).flatten)) := by
        refine List.filter_congr ?_
        intro x hx
        have hfx : (resourceMapGet j.resources x).isSome = true := (hfound x).2 hx
        have hiff : x ∈ inSectionIds j ↔
            x ∈ (j.sections.map JourneySection.resources).flatten := by
          rw [hins]
          exact ⟨fun h => (List.mem_filter.1 h).1,
            fun h => List.mem_filter.2 ⟨h, hfx⟩⟩
        simp [hiff]
      rw [hcongr]
    have hC := count_partition (j.resources.map Resource.id)
      ((j.sections.map JourneySection.resources).flatten) hids hsec
      (fun rid => (resourceMapGet j.resources rid).isSome) hfound
    unfold roadmapIds roadmapSections
    rw [if_neg h0]
    by_cases hm : missingResourcesList j = []
    · rw [if_pos hm, hA]
      have hmnil : (j.resources.map Resource.id).filter
          (fun a => decide (a ∉ (j.sections.map JourneySection.resources).flatten)) = [] := by
        have h := hB
        rw [hm] at h
        exact (h.symm).eq_nil
      rw [← List.append_nil (((j.sections.map JourneySection.resources).flatten).filter
        (fun rid => (resourceMapGet j.resources rid).isSome))]
      rw [← hmnil]
      exact hC
    · rw [if_neg hm]
      by_cases hd : declaredSections j = []
      · rw [if_pos hd]
        have hFnil : ((j.sections.map JourneySection.resources).flatten).filter
            (fun rid => (resourceMapGet j.resources rid).isSome) = [] := by
          rw [← hA, hd]; rfl
        have hgoal : ((([⟨"Additional Resources", some "Additional learning materials",
            missingResourcesList j⟩] : List SectionOut).map sectionIdList)).flatten =
            (missingResourcesList j).map (fun p => p.2.id) := by
          simp [sectionIdList]
        rw [hgoal]
        refine hB.trans ?_
        have h := hC
        rw [hFnil] at h
        simpa using h
      · rw [if_neg hd]
        refine (appendToLast_flatten_perm (missingResourcesList j) (declaredSections j) hd).trans ?_
        rw [hA]
        refine (hB.append_left _).trans hC

/-- Witness for claim C3 (amended) at a concrete two-section journey with a
leftover resource. -/
theorem roadmap_section_partition_witness :
    List.Perm
      (roadmapIds
        ⟨1, "t", "g", "beginner", "ready",
          [⟨"r1", "u1", "t1", "video", "beginner", 1⟩,
           ⟨"r2", "u2", "t2", "blog", "beginner", 1⟩,
           ⟨"r3", "u3", "t3", "doc", "beginner", 1⟩],
          [⟨"A", none, ["r2"]⟩, ⟨"B", none, ["r1"]⟩]⟩)
      ((⟨1, "t", "g", "beginner", "ready",
          [⟨"r1", "u1", "t1", "video", "beginner", 1⟩,
           ⟨"r2", "u2", "t2", "blog", "beginner", 1⟩,
           ⟨"r3", "u3", "t3", "doc", "beginner", 1⟩],
          [⟨"A", none, ["r2"]⟩, ⟨"B", none, ["r1"]⟩]⟩ : Journey).resources.map
        Resource.id) :=
  roadmap_section_partition
    ⟨1, "t", "g", "beginner", "ready",
      [⟨"r1", "u1", "t1", "video", "beginner", 1⟩,
       ⟨"r2", "u2", "t2", "blog", "beginner", 1⟩,
       ⟨"r3", "u3", "t3", "doc", "beginner", 1⟩],
      [⟨"A", none, ["r2"]⟩, ⟨"B", none, ["r1"]⟩]⟩
    (by decide) (by decide)

end Upskill
